import Mathlib

/-!
Verification of the quart-schema conversion and extension core.

This file shallowly embeds the model-conversion subsystem of the repository
(src/quart_schema/conversion.py and src/quart_schema/extension.py) and proves
or refutes the frozen specification claims about it.

Embedding conventions:
* Python JSON-like values and model instances are the inductive `PyVal`;
  a model instance carries its class (`ModelClass`) and its ordered field
  assignments.  Python `None` is `PyVal.noneV`.
* Python classes are `ModelClass` records with a `ClassKind` tag matching the
  isinstance/issubclass checks the source performs (pydantic dataclass,
  pydantic BaseModel subclass, msgspec Struct subclass, attrs class, plain
  dataclass, the builtin list/dict classes, or anything else).
* Exceptions become `Except PyError` values.  `PyError.wrapped E e` stands for
  the Python expression `exception_class(error)` raising an instance of the
  caller-supplied class named `E` with the original error `e` as its argument.
* Both optional backends are modelled as installed (as in the repository's
  test environment): `PYDANTIC_INSTALLED = MSGSPEC_INSTALLED = true`.
* The pyhumps string casing helpers (camelize/decamelize/kebabize/dekebabize)
  are modelled on their behaviour for the snake_case / camelCase / kebab-case
  identifiers this code feeds them; `applyKeys` models humps' recursive key
  rewriting of nested dicts and lists.
* Field aliases are not modelled: the embedded classes declare plain field
  names only, and the `by_alias` flag is threaded through faithfully but has
  no aliased field to act on (no claim exercises aliasing).
-/

/-- Kind tag for a Python class, matching the dispatch checks used by
conversion.py: pydantic dataclasses, pydantic BaseModel subclasses, msgspec
Struct subclasses, attrs classes, plain stdlib dataclasses, the builtin
`list` and `dict` classes, and everything else. -/
inductive ClassKind where
  | pydanticDataclass
  | baseModel
  | struct
  | attrsClass
  | dataclass
  | builtinList
  | builtinDict
  | other
deriving DecidableEq, Repr

/-- Scalar field type declared by an embedded model class. -/
inductive FieldTy where
  | str
  | int
  | bool
deriving DecidableEq, Repr

/-- One declared field of a model class: its name and its scalar type. -/
structure FieldDecl where
  name : String
  ty : FieldTy
deriving DecidableEq, Repr

/-- A Python class as seen by conversion.py: a name, a kind tag, declared
fields, and the names of its strict ancestors (used for the subclass
distinction in WebsocketMixin.send_as). -/
structure ModelClass where
  name : String
  kind : ClassKind
  fields : List FieldDecl
  bases : List String
deriving DecidableEq, Repr

/-- Python JSON-like runtime values plus model instances.  A model instance
records its class and its ordered field-name/value assignments. -/
inductive PyVal where
  | str (s : String)
  | int (n : Int)
  | bool (b : Bool)
  | noneV
  | list (xs : List PyVal)
  | dict (kvs : List (String × PyVal))
  | model (cls : ModelClass) (fields : List (String × PyVal))

/-- Errors raised by the embedded code.  The first four mirror the Python
exception types the source catches (TypeError, ValueError, pydantic
ValidationError, msgspec ValidationError); `schemaValidationError` is the
extension module's SchemaValidationError; `wrapped E e` is an instance of the
caller-supplied exception class named `E` constructed from the original
error `e` (the Python expression `exception_class(error)`). -/
inductive PyError where
  | typeError (msg : String)
  | valueError (msg : String)
  | pydanticValidationError (msg : String)
  | msgspecValidationError (msg : String)
  | schemaValidationError
  | wrapped (cls : String) (cause : PyError)
deriving DecidableEq, Repr

/-- The runtime class of a value (Python `type(v)`).  Builtin classes are
represented with their kind tags and no fields. -/
def typeOf : PyVal → ModelClass
  | .model cls _ => cls
  | .dict _ => ⟨"dict", .builtinDict, [], []⟩
  | .list _ => ⟨"list", .builtinList, [], []⟩
  | .str _ => ⟨"str", .other, [], []⟩
  | .int _ => ⟨"int", .other, [], []⟩
  | .bool _ => ⟨"bool", .other, [], []⟩
  | .noneV => ⟨"NoneType", .other, [], []⟩

def PYDANTIC_INSTALLED : Bool := true

def MSGSPEC_INSTALLED : Bool := true

/-! Python type-test predicates used by conversion.py, on values. -/

/-- Python `is_pydantic_dataclass(raw)` on an instance. -/
def is_pydantic_dataclass_val (v : PyVal) : Bool :=
  (typeOf v).kind == .pydanticDataclass

/-- Python `isinstance(raw, BaseModel)`. -/
def isinstance_BaseModel (v : PyVal) : Bool :=
  (typeOf v).kind == .baseModel

/-- Python `isinstance(raw, Struct)`. -/
def isinstance_Struct (v : PyVal) : Bool :=
  (typeOf v).kind == .struct

/-- Python `is_attrs(raw)` (attrs.has on the runtime class). -/
def is_attrs_val (v : PyVal) : Bool :=
  (typeOf v).kind == .attrsClass

/-- Python `isinstance(raw, (list, dict))`. -/
def isinstance_list_dict_val (v : PyVal) : Bool :=
  match v with
  | .list _ => true
  | .dict _ => true
  | _ => false

/-- Python `isinstance(value, dict)`. -/
def isinstance_dict (v : PyVal) : Bool :=
  match v with
  | .dict _ => true
  | _ => false

/-- Python `is_dataclass(raw)`: true for dataclass instances, including
pydantic dataclasses (which are also stdlib dataclasses). -/
def is_dataclass_val (v : PyVal) : Bool :=
  (typeOf v).kind == .dataclass || (typeOf v).kind == .pydanticDataclass

/-! Python type-test predicates on classes (the model_load / model_schema /
convert_headers target type). -/

/-- Python `is_pydantic_dataclass(model_class)`. -/
def is_pydantic_dataclass_cls (c : ModelClass) : Bool :=
  c.kind == .pydanticDataclass

/-- Python `issubclass(model_class, BaseModel)`. -/
def issubclass_BaseModel (c : ModelClass) : Bool :=
  c.kind == .baseModel

/-- Python `issubclass(model_class, Struct)`. -/
def issubclass_Struct (c : ModelClass) : Bool :=
  c.kind == .struct

/-- Python `is_attrs(model_class)`. -/
def is_attrs_cls (c : ModelClass) : Bool :=
  c.kind == .attrsClass

/-- Python `is_dataclass(model_class)`: true for dataclass classes, including
pydantic dataclasses. -/
def is_dataclass_cls (c : ModelClass) : Bool :=
  c.kind == .dataclass || c.kind == .pydanticDataclass

/-- Python `isinstance(model_class, (list, dict))` where `model_class` is a
class object.  A class object is an instance of `type`, never of `list` or
`dict`, so this check from model_load lines 178 and 188 is always false. -/
def isinstance_list_dict_cls (_ : ModelClass) : Bool :=
  false

/-! Casing helpers from the pyhumps library, modelled on their behaviour for
the snake_case / camelCase / kebab-case identifiers this code feeds them. -/

/-- Python `str.lower()` on the ASCII identifiers and header names this code
handles: lower-case every character. -/
def lowerStr (s : String) : String :=
  String.mk (s.data.map Char.toLower)

/-- pyhumps `camelize` on the characters of a snake_case string: drop each
underscore and capitalize the character following it; the leading word is
kept as is. -/
def camelizeChars : List Char → List Char
  | [] => []
  | c :: rest =>
    if c = '_' then
      match rest with
      | [] => []
      | c2 :: rest2 => c2.toUpper :: camelizeChars rest2
    else c :: camelizeChars rest

/-- pyhumps `camelize` on a single snake_case string. -/
def camelizeStr (s : String) : String :=
  String.mk (camelizeChars s.data)

/-- One step of pyhumps `decamelize`: an upper-case character becomes an
underscore followed by its lower-case form. -/
def decamelizeChar (c : Char) : String :=
  if c.isUpper then String.mk ['_', c.toLower] else String.mk [c]

/-- pyhumps `decamelize` on a single camelCase string. -/
def decamelizeStr (s : String) : String :=
  match s.data with
  | [] => ""
  | c :: cs => String.mk [c.toLower] ++ String.join (cs.map decamelizeChar)

/-- pyhumps `kebabize` on a single snake_case string: underscores become
hyphens. -/
def kebabizeStr (s : String) : String :=
  String.mk (s.data.map (fun c => if c = '_' then '-' else c))

/-- pyhumps `dekebabize` on a single string: hyphens become underscores. -/
def dekebabizeStr (s : String) : String :=
  String.mk (s.data.map (fun c => if c = '-' then '_' else c))

mutual

/-- pyhumps key processing (`humps.camelize`/`humps.kebabize`/
`humps.decamelize` applied to a container): rewrite every mapping key with
`f`, recursing through nested dicts and lists; scalars are untouched. -/
def applyKeys (f : String → String) : PyVal → PyVal
  | .dict kvs => .dict (applyKeysKVs f kvs)
  | .list xs => .list (applyKeysList f xs)
  | v => v

/-- Key rewriting for a list of values. -/
def applyKeysList (f : String → String) : List PyVal → List PyVal
  | [] => []
  | x :: xs => applyKeys f x :: applyKeysList f xs

/-- Key rewriting for the entries of a dict. -/
def applyKeysKVs (f : String → String) : List (String × PyVal) → List (String × PyVal)
  | [] => []
  | (k, v) :: kvs => (f k, applyKeys f v) :: applyKeysKVs f kvs

end

mutual

/-- Conversion of a value to plain builtins, as performed by msgspec
`to_builtins` and by pydantic `TypeAdapter(type(raw)).dump_python(raw)` /
`RootModel[type(raw)](raw).model_dump()`: model instances become dicts of
their fields, containers recurse, scalars are unchanged. -/
def toBuiltins : PyVal → PyVal
  | .model _ fs => .dict (toBuiltinsKVs fs)
  | .list xs => .list (toBuiltinsList xs)
  | .dict kvs => .dict (toBuiltinsKVs kvs)
  | v => v

/-- Builtins conversion for a list of values. -/
def toBuiltinsList : List PyVal → List PyVal
  | [] => []
  | x :: xs => toBuiltins x :: toBuiltinsList xs

/-- Builtins conversion for dict entries or model fields. -/
def toBuiltinsKVs : List (String × PyVal) → List (String × PyVal)
  | [] => []
  | (k, v) :: kvs => (k, toBuiltins v) :: toBuiltinsKVs kvs

end

/-- Condition under which model_dump (conversion.py lines 133-151) recognizes
`raw` as a model value; when false, model_dump hits the `else: return raw`
branch (line 152) and the value is opaque. -/
def dumpRecognized (raw : PyVal) (preference : Option String) : Bool :=
  is_pydantic_dataclass_val raw
  || isinstance_BaseModel raw
  || (isinstance_Struct raw || is_attrs_val raw)
  || ((isinstance_list_dict_val raw || is_dataclass_val raw)
        && PYDANTIC_INSTALLED && !(preference == some "msgspec"))
  || ((isinstance_list_dict_val raw || is_dataclass_val raw)
        && MSGSPEC_INSTALLED && !(preference == some "pydantic"))

/-- The dispatch chain of model_dump (conversion.py lines 133-152), producing
the extracted plain value, or nothing when `raw` matches no branch.  Every
recognized branch extracts the same plain nested data: pydantic dataclasses
through `RootModel[type(raw)](raw).model_dump()`, BaseModel instances through
`raw.model_dump(by_alias=by_alias)` (no embedded class declares an alias, so
the flag has nothing to act on), Structs and attrs instances through
`to_builtins`, and list/dict/dataclass values through
`TypeAdapter(type(raw)).dump_python(raw)` or `to_builtins` depending on the
installed backends and the preference. -/
def dumpExtract (raw : PyVal) (by_alias : Bool) (preference : Option String) :
    Option PyVal :=
  if is_pydantic_dataclass_val raw then
    some (toBuiltins raw)
  else if isinstance_BaseModel raw then
    some (toBuiltins raw)
  else if isinstance_Struct raw || is_attrs_val raw then
    some (toBuiltins raw)
  else if (isinstance_list_dict_val raw || is_dataclass_val raw)
      && PYDANTIC_INSTALLED && !(preference == some "msgspec") then
    some (toBuiltins raw)
  else if (isinstance_list_dict_val raw || is_dataclass_val raw)
      && MSGSPEC_INSTALLED && !(preference == some "pydantic") then
    some (toBuiltins raw)
  else
    Option.none

/-- conversion.py `model_dump` (lines 125-159).  Dispatches on the runtime
kind of `raw`; unrecognized values are returned unchanged before any casing
is applied; recognized values are extracted to builtins and then camelized or
kebabized.  The function is total: the opaque arm raises nothing. -/
def model_dump (raw : PyVal) (by_alias : Bool) (camelize : Bool)
    (kebabize : Bool) (preference : Option String) : PyVal :=
  match dumpExtract raw by_alias preference with
  | Option.none => raw
  | some value =>
    if camelize then applyKeys camelizeStr value
    else if kebabize then applyKeys kebabizeStr value
    else value

/-! Deserialization (conversion.py `model_load`, lines 162-197). -/

/-- Python dict lookup on an association list (keys are unique in a real
dict, so first match is the only match). -/
def lookupA {α : Type} (d : List (String × α)) (k : String) : Option α :=
  match d with
  | [] => Option.none
  | kv :: rest => if kv.1 == k then some kv.2 else lookupA rest k

/-- Python dict assignment `d[k] = v` on an association list: replace the
value of an existing key, otherwise append the new entry at the end. -/
def dictSetA {α : Type} (d : List (String × α)) (k : String) (v : α) :
    List (String × α) :=
  if d.any (fun kv => kv.1 == k) then
    d.map (fun kv => if kv.1 == k then (k, v) else kv)
  else
    d ++ [(k, v)]

/-- Python dict lookup on a dict of PyVal values. -/
def lookupDict (kvs : List (String × PyVal)) (k : String) : Option PyVal :=
  lookupA kvs k

/-- Does a runtime value inhabit a declared scalar field type. -/
def checkFieldTy : FieldTy → PyVal → Bool
  | .str, .str _ => true
  | .int, .int _ => true
  | .bool, .bool _ => true
  | _, _ => false

/-- Field-by-field validation shared by the embedded backend converters:
each declared field must be present in the payload under its name and carry a
value of the declared type; on failure an error built by `mkErr` (a backend
native validation error) is raised.  On success the fields are returned in
declaration order, as the backends construct instances. -/
def validateFieldList (mkErr : String → PyError) (decls : List FieldDecl)
    (kvs : List (String × PyVal)) : Except PyError (List (String × PyVal)) :=
  match decls with
  | [] => .ok []
  | f :: rest =>
    match lookupDict kvs f.name with
    | Option.none => .error (mkErr ("missing field " ++ f.name))
    | some v =>
      if checkFieldTy f.ty v then
        match validateFieldList mkErr rest kvs with
        | .ok r => .ok ((f.name, v) :: r)
        | .error e => .error e
      else .error (mkErr ("invalid type for field " ++ f.name))

/-- pydantic `TypeAdapter(model_class).validate_python(data)`: validate a
payload dict against the class's declared fields and construct an instance;
failures are pydantic ValidationError. -/
def pydanticValidate (mc : ModelClass) (data : PyVal) : Except PyError PyVal :=
  match data with
  | .dict kvs =>
    match validateFieldList PyError.pydanticValidationError mc.fields kvs with
    | .ok fs => .ok (.model mc fs)
    | .error e => .error e
  | _ => .error (.pydanticValidationError "input is not a dict")

/-- msgspec `convert(data, model_class, strict=False)`: validate a payload
dict against the class's declared fields and construct an instance; failures
are msgspec ValidationError. -/
def msgspecConvert (mc : ModelClass) (data : PyVal) : Except PyError PyVal :=
  match data with
  | .dict kvs =>
    match validateFieldList PyError.msgspecValidationError mc.fields kvs with
    | .ok fs => .ok (.model mc fs)
    | .error e => .error e
  | _ => .error (.msgspecValidationError "input is not a dict")

/-- Condition of model_load's first arm (lines 174-182): pydantic dataclass,
BaseModel subclass, or a list/dict/dataclass class handled by pydantic when
the preference does not pin msgspec. -/
def loadPydanticCond (mc : ModelClass) (preference : Option String) : Bool :=
  is_pydantic_dataclass_cls mc
  || issubclass_BaseModel mc
  || ((isinstance_list_dict_cls mc || is_dataclass_cls mc)
        && PYDANTIC_INSTALLED && !(preference == some "msgspec"))

/-- Condition of model_load's second arm (lines 184-192): msgspec Struct
subclass, attrs class, or a list/dict/dataclass class handled by msgspec when
the preference does not pin pydantic. -/
def loadMsgspecCond (mc : ModelClass) (preference : Option String) : Bool :=
  issubclass_Struct mc
  || is_attrs_cls mc
  || ((isinstance_list_dict_cls mc || is_dataclass_cls mc)
        && MSGSPEC_INSTALLED && !(preference == some "pydantic"))

/-- The body of model_load's `try` block (lines 174-195): dispatch to a
backend converter, or raise a generic TypeError for an unrecognized target
kind.  The TypeError is raised inside the `try`. -/
def loadTryBody (data : PyVal) (mc : ModelClass) (preference : Option String) :
    Except PyError PyVal :=
  if loadPydanticCond mc preference then pydanticValidate mc data
  else if loadMsgspecCond mc preference then msgspecConvert mc data
  else .error (.typeError ("Cannot load " ++ mc.name))

/-- Errors matched by model_load's `except (TypeError, MsgSpecValidationError,
PydanticValidationError, ValueError)` clause (line 196). -/
def isCaughtByLoad : PyError → Bool
  | .typeError _ => true
  | .valueError _ => true
  | .pydanticValidationError _ => true
  | .msgspecValidationError _ => true
  | _ => false

/-- conversion.py `model_load` (lines 162-197).  Optionally decamelizes the
payload keys, runs the kind dispatch inside a try block, and re-raises any
caught error as a single instance of the caller-supplied `exception_class`
carrying the original error. -/
def model_load (data : PyVal) (mc : ModelClass) (exception_class : String)
    (decamelize : Bool) (preference : Option String) : Except PyError PyVal :=
  let data := if decamelize then applyKeys decamelizeStr data else data
  match loadTryBody data mc preference with
  | .ok v => .ok v
  | .error e =>
    if isCaughtByLoad e then .error (.wrapped exception_class e) else .error e

/-! Response normalization (conversion.py `convert_response_return_value`,
lines 76-122). -/

/-- The process-wide configuration the function reads from
`current_app.config`: QUART_SCHEMA_CONVERT_CASING (camel casing on response
bodies), QUART_SCHEMA_BY_ALIAS, and QUART_SCHEMA_CONVERSION_PREFERENCE. -/
structure AppConfig where
  convertCasing : Bool
  byAlias : Bool
  preference : Option String

/-- A handler's return value: an HTTPException instance (identified here by a
name), a bare body, a 2-tuple of body and status-or-headers, or a 3-tuple of
body, status and headers. -/
inductive ResponseResult where
  | httpExc (e : String)
  | bare (value : PyVal)
  | two (value : PyVal) (statusOrHeaders : PyVal)
  | three (value : PyVal) (status : Int) (headers : PyVal)

/-- Python `isinstance(status_or_headers, int)`.  Python bools are ints, so a
bool also passes this check. -/
def isIntInstance : PyVal → Bool
  | .int _ => true
  | .bool _ => true
  | _ => false

/-- The body serialization of convert_response_return_value (lines 97-102):
model_dump with the configured casing, alias flag and preference. -/
def dumpBody (cfg : AppConfig) (v : PyVal) : PyVal :=
  model_dump v cfg.byAlias cfg.convertCasing false cfg.preference

/-- The headers serialization of convert_response_return_value (lines
103-108): model_dump with `kebabize=True` forced (and no camelize), with the
configured alias flag and preference. -/
def dumpHeaders (cfg : AppConfig) (h : PyVal) : PyVal :=
  model_dump h cfg.byAlias false true cfg.preference

/-- conversion.py `convert_response_return_value` (lines 76-122).
HTTPException instances are returned unchanged.  Tuples are destructured
(the second element of a 2-tuple is a status iff it is an int instance), the
body goes through `dumpBody`, any headers go through `dumpHeaders`, any
status is kept, and the original shape is reassembled. -/
def convert_response_return_value (cfg : AppConfig) :
    ResponseResult → ResponseResult
  | .httpExc e => .httpExc e
  | .bare v => .bare (dumpBody cfg v)
  | .two v soh =>
    if isIntInstance soh then .two (dumpBody cfg v) soh
    else .two (dumpBody cfg v) (dumpHeaders cfg soh)
  | .three v s h => .three (dumpBody cfg v) s (dumpHeaders cfg h)

/-- Tuple shape of a handler return value (0 for an HTTPException, 1 for a
bare value, 2 and 3 for the tuples). -/
def shapeOf : ResponseResult → Nat
  | .httpExc _ => 0
  | .bare _ => 1
  | .two _ _ => 2
  | .three _ _ _ => 3

/-- The headers component of a handler return value, when present. -/
def headersOf : ResponseResult → Option PyVal
  | .three _ _ h => some h
  | .two _ soh => if isIntInstance soh then Option.none else some soh
  | _ => Option.none

/-! Header extraction (conversion.py `convert_headers`, lines 220-248). -/

/-- werkzeug `Headers.get_all(key)`: all values whose wire key matches
case-insensitively, in order. -/
def getAll (raw : List (String × String)) (k : String) : List String :=
  (raw.filter (fun kv => lowerStr kv.1 == lowerStr k)).map Prod.snd

/-- Python `",".join(values)`. -/
def joinComma (xs : List String) : String :=
  String.intercalate "," xs

/-- The key normalization of convert_headers line 238:
`humps.dekebabize(raw_key).lower()`. -/
def normalizeHeaderKey (s : String) : String :=
  lowerStr (dekebabizeStr s)

/-- Python dict assignment `d[k] = v` on a dict of PyVal values. -/
def dictSet (d : List (String × PyVal)) (k : String) (v : PyVal) :
    List (String × PyVal) :=
  dictSetA d k v

/-- Field-name resolution of convert_headers (lines 223-234), in source
branch order; an unrecognized class raises a bare TypeError (outside the try
block, so never wrapped). -/
def headerFields (mc : ModelClass) : Except PyError (List String) :=
  if is_pydantic_dataclass_cls mc then .ok (mc.fields.map FieldDecl.name)
  else if is_dataclass_cls mc then .ok (mc.fields.map FieldDecl.name)
  else if issubclass_BaseModel mc then .ok (mc.fields.map FieldDecl.name)
  else if is_attrs_cls mc then .ok (mc.fields.map FieldDecl.name)
  else if issubclass_Struct mc then .ok (mc.fields.map FieldDecl.name)
  else .error (.typeError ("Cannot convert to " ++ mc.name))

/-- One iteration of the collection loop of convert_headers (lines 237-243):
normalize the wire key; if the normalized form is a declared field, store the
comma-join of all case-insensitive matches under it; otherwise do nothing. -/
def headerStep (raw : List (String × String)) (fields_ : List String)
    (result : List (String × PyVal)) (kv : String × String) :
    List (String × PyVal) :=
  let key := normalizeHeaderKey kv.1
  if fields_.contains key then
    dictSet result key (.str (joinComma (getAll raw kv.1)))
  else result

/-- The collection loop of convert_headers (lines 236-243) over a werkzeug
Headers multimap, iterating the wire keys in order starting from an empty
dict. -/
def headerLoop (raw : List (String × String)) (fields_ : List String) :
    List (String × PyVal) :=
  raw.foldl (headerStep raw fields_) []

/-- The backend error raised when `model_class(**result)` fails, by class
kind: pydantic classes raise pydantic ValidationError, msgspec Structs raise
msgspec ValidationError, attrs and plain dataclasses raise TypeError for a
missing required argument. -/
def constructErr (mc : ModelClass) (msg : String) : PyError :=
  match mc.kind with
  | .pydanticDataclass => .pydanticValidationError msg
  | .baseModel => .pydanticValidationError msg
  | .struct => .msgspecValidationError msg
  | _ => .typeError msg

/-- Python `model_class(**result)`: keyword construction with the backend's
own validation. -/
def constructModel (mc : ModelClass) (kvs : List (String × PyVal)) :
    Except PyError PyVal :=
  match validateFieldList (constructErr mc) mc.fields kvs with
  | .ok fs => .ok (.model mc fs)
  | .error e => .error e

/-- Errors matched by convert_headers' `except (TypeError,
MsgSpecValidationError, ValueError)` clause (line 247); note pydantic
ValidationError is not in this list. -/
def isCaughtByHeaders : PyError → Bool
  | .typeError _ => true
  | .valueError _ => true
  | .msgspecValidationError _ => true
  | _ => false

/-- The construction step of convert_headers (lines 245-248): build the model
from the collected fields, wrapping a caught construction failure in the
caller-supplied exception class. -/
def constructFromHeaders (mc : ModelClass) (result : List (String × PyVal))
    (exception_class : String) : Except PyError PyVal :=
  match constructModel mc result with
  | .ok v => .ok v
  | .error e =>
    if isCaughtByHeaders e then .error (.wrapped exception_class e)
    else .error e

/-- conversion.py `convert_headers` (lines 220-248) for a werkzeug Headers
multimap: resolve the declared field names, collect matching headers, and
construct the model. -/
def convert_headers (raw : List (String × String)) (mc : ModelClass)
    (exception_class : String) : Except PyError PyVal :=
  match headerFields mc with
  | .error e => .error e
  | .ok fields_ => constructFromHeaders mc (headerLoop raw fields_) exception_class

/-! OpenAPI assembly method loop (extension.py `QuartSchema.openapi`, lines
243-246). -/

/-- extension.py lines 243-246: for every HTTP method the rule accepts, skip
HEAD always and OPTIONS when the rule provides automatic options, otherwise
assign the operation object under the lower-cased method key in the path's
method map. -/
def attachOperations {α : Type} (methods : List String)
    (provideAutomaticOptions : Bool) (op : α) (acc : List (String × α)) :
    List (String × α) :=
  methods.foldl
    (fun acc' method =>
      if method == "HEAD" || (method == "OPTIONS" && provideAutomaticOptions) then
        acc'
      else
        dictSetA acc' (lowerStr method) op)
    acc

/-! Schema definition splitting (extension.py `_split_definitions`, lines
276-279). -/

/-- Python `schema.copy()`: a fresh dict object with the same entries; the
original is disconnected from any later mutation of the copy. -/
def dictCopy (d : List (String × PyVal)) : List (String × PyVal) :=
  d

/-- Remove the first entry whose key is `k` (the only one, in a real dict). -/
def eraseFirstKey (d : List (String × PyVal)) (k : String) :
    List (String × PyVal) :=
  match d with
  | [] => []
  | kv :: rest => if kv.1 == k then rest else kv :: eraseFirstKey rest k

/-- Python `d.pop(k, default)`: return the stored value and the dict without
the entry, or the default and the unchanged dict. -/
def dictPopD (d : List (String × PyVal)) (k : String) (dflt : PyVal) :
    PyVal × List (String × PyVal) :=
  match lookupDict d k with
  | Option.none => (dflt, d)
  | some v => (v, eraseFirstKey d k)

/-- extension.py `_split_definitions` (lines 276-279), with the state of the
caller's dict made explicit: returns ((definitions, new_schema), schema'),
where schema' is the caller's dict after the call.  The function copies the
input and pops "definitions" (defaulting to an empty dict) off the copy
only, so schema' is the untouched input. -/
def split_definitions (schema : List (String × PyVal)) :
    (PyVal × List (String × PyVal)) × List (String × PyVal) :=
  let new_schema := dictCopy schema
  let popped := dictPopD new_schema "definitions" (.dict [])
  ((popped.1, popped.2), schema)

/-! Websocket sending (extension.py `WebsocketMixin.send_as`, lines 87-104). -/

/-- Errors matched by send_as's `except ValidationError` clause (line 93):
only pydantic ValidationError. -/
def isPydanticValidationErr : PyError → Bool
  | .pydanticValidationError _ => true
  | _ => false

/-- The payload serialization of send_as (lines 99-103): dataclass instances
via `asdict`, pydantic models via `.dict()`; both produce the plain dict of
fields. -/
def wsPayload (v : PyVal) : PyVal :=
  toBuiltins v

/-- extension.py `WebsocketMixin.send_as` (lines 87-104), returning the JSON
payload passed to send_json.  A dict is converted through
`model_class(**value)` (a pydantic ValidationError becomes
SchemaValidationError); a value whose runtime type is exactly `model_class`
is used as is; anything else raises SchemaValidationError. -/
def send_as (value : PyVal) (model_class : ModelClass) : Except PyError PyVal :=
  match value with
  | .dict kvs =>
    match constructModel model_class kvs with
    | .ok m => .ok (wsPayload m)
    | .error e =>
      if isPydanticValidationErr e then .error .schemaValidationError
      else .error e
  | v =>
    if typeOf v = model_class then .ok (wsPayload v)
    else .error .schemaValidationError

/-- Is `sub` a strict subclass of `sup`: distinct classes with `sup` among
`sub`'s ancestors. -/
def isStrictSubclass (sub sup : ModelClass) : Bool :=
  decide (sub ≠ sup) && sub.bases.contains sup.name

/-! Validity notions used to state the round-trip property. -/

/-- The class-based model kinds: pydantic dataclass, BaseModel subclass,
msgspec Struct subclass, attrs class, plain dataclass.  (Bare list and dict
values are also recognized by model_dump, but their runtime type is the
builtin `list`/`dict` class.) -/
def classBasedKind (k : ClassKind) : Bool :=
  k == .pydanticDataclass || k == .baseModel || k == .struct
    || k == .attrsClass || k == .dataclass

/-- A model instance's field assignments are valid for a class's
declarations: same names in declaration order and values of the declared
scalar types. -/
def fieldsMatch : List (String × PyVal) → List FieldDecl → Bool
  | [], [] => true
  | (k, v) :: fs, f :: ds =>
    k == f.name && checkFieldTy f.ty v && fieldsMatch fs ds
  | _, _ => false

/-!
Theorems.  General lemmas about the Python dict embedding come first,
followed by one theorem (plus witness or counterexample) per claim.
-/

theorem lookupA_nil {α : Type} (k : String) :
    lookupA ([] : List (String × α)) k = Option.none := rfl

theorem lookupA_cons {α : Type} (kv : String × α) (rest : List (String × α))
    (k : String) :
    lookupA (kv :: rest) k = if kv.1 == k then some kv.2 else lookupA rest k := rfl

theorem lookupA_map_replace {α : Type} (k : String) (v : α) :
    ∀ d : List (String × α), d.any (fun kv => kv.1 == k) = true →
      lookupA (d.map (fun kv => if kv.1 == k then (k, v) else kv)) k = some v := by
  intro d
  induction d with
  | nil => intro h; simp at h
  | cons kv rest ih =>
    intro h
    by_cases hk : (kv.1 == k) = true
    · simp [lookupA, hk]
    · have hrest : rest.any (fun kv => kv.1 == k) = true := by
        simp only [List.any_cons, Bool.or_eq_true] at h
        rcases h with h | h
        · exact absurd h hk
        · exact h
      simpa [lookupA, hk] using ih hrest

theorem lookupA_append_new {α : Type} (k : String) (v : α) :
    ∀ d : List (String × α), d.any (fun kv => kv.1 == k) = false →
      lookupA (d ++ [(k, v)]) k = some v := by
  intro d
  induction d with
  | nil => simp [lookupA]
  | cons kv rest ih =>
    intro h
    simp only [List.any_cons, Bool.or_eq_false_iff] at h
    simpa [lookupA, h.1] using ih h.2

theorem lookupA_dictSetA_self {α : Type} (d : List (String × α)) (k : String) (v : α) :
    lookupA (dictSetA d k v) k = some v := by
  unfold dictSetA
  by_cases h : d.any (fun kv => kv.1 == k) = true
  · rw [if_pos h]; exact lookupA_map_replace k v d h
  · rw [if_neg h]
    exact lookupA_append_new k v d (Bool.eq_false_iff.mpr h)

theorem lookupA_map_replace_ne {α : Type} (k k' : String) (v : α)
    (hne : k' ≠ k) :
    ∀ d : List (String × α),
      lookupA (d.map (fun kv => if kv.1 == k then (k, v) else kv)) k'
        = lookupA d k' := by
  have h2 : (k == k') = false := beq_eq_false_iff_ne.mpr (fun hh => hne hh.symm)
  intro d
  induction d with
  | nil => rfl
  | cons kv rest ih =>
    rw [List.map_cons, lookupA_cons, lookupA_cons]
    by_cases hk : (kv.1 == k) = true
    · have h1 : kv.1 = k := by simpa using hk
      have h3 : (kv.1 == k') = false := by rw [h1]; exact h2
      rw [if_pos hk]
      show (if (k == k') = true then some v else _) = _
      rw [if_neg (by simp [h2]), if_neg (by simp [h3])]
      exact ih
    · rw [if_neg hk]
      by_cases hk' : (kv.1 == k') = true
      · rw [if_pos hk', if_pos hk']
      · rw [if_neg hk', if_neg hk']
        exact ih

theorem lookupA_append_ne {α : Type} (k k' : String) (v : α) (hne : k' ≠ k) :
    ∀ d : List (String × α),
      lookupA (d ++ [(k, v)]) k' = lookupA d k' := by
  have h2 : (k == k') = false := beq_eq_false_iff_ne.mpr (fun hh => hne hh.symm)
  intro d
  induction d with
  | nil =>
    show lookupA [(k, v)] k' = Option.none
    rw [lookupA_cons]
    rw [if_neg (by simp [h2])]
    rfl
  | cons kv rest ih =>
    rw [List.cons_append, lookupA_cons, lookupA_cons]
    by_cases hk' : (kv.1 == k') = true
    · rw [if_pos hk', if_pos hk']
    · rw [if_neg hk', if_neg hk']
      exact ih

theorem lookupA_dictSetA_ne {α : Type} (d : List (String × α)) (k k' : String)
    (v : α) (hne : k' ≠ k) :
    lookupA (dictSetA d k v) k' = lookupA d k' := by
  unfold dictSetA
  by_cases h : d.any (fun kv => kv.1 == k) = true
  · rw [if_pos h]; exact lookupA_map_replace_ne k k' v hne d
  · rw [if_neg h]; exact lookupA_append_ne k k' v hne d

theorem mem_dictSetA {α : Type} (d : List (String × α)) (k : String) (v : α)
    (e : String × α) (he : e ∈ dictSetA d k v) : e = (k, v) ∨ e ∈ d := by
  unfold dictSetA at he
  by_cases h : d.any (fun kv => kv.1 == k) = true
  · rw [if_pos h] at he
    rcases List.mem_map.mp he with ⟨e0, he0, heq⟩
    by_cases hk : (e0.1 == k) = true
    · left; rw [← heq]; simp [hk]
    · right; rw [← heq]; simpa [hk] using he0
  · rw [if_neg h] at he
    rcases List.mem_append.mp he with he | he
    · right; exact he
    · left; simpa using he

theorem isSome_lookupA_dictSetA {α : Type} (d : List (String × α))
    (k k' : String) (v : α) (h : (lookupA d k').isSome = true) :
    (lookupA (dictSetA d k v) k').isSome = true := by
  by_cases hk : k' = k
  · subst hk; rw [lookupA_dictSetA_self]; rfl
  · rw [lookupA_dictSetA_ne d k k' v hk]; exact h

theorem lookupA_mem {α : Type} (k : String) (v : α) :
    ∀ d : List (String × α), lookupA d k = some v → (k, v) ∈ d := by
  intro d
  induction d with
  | nil => intro h; simp [lookupA] at h
  | cons kv rest ih =>
    intro h
    rw [lookupA_cons] at h
    by_cases hk : (kv.1 == k) = true
    · rw [if_pos hk] at h
      have h1 : kv.1 = k := by simpa using hk
      have h2 : kv.2 = v := by simpa using h
      have hkv : (k, v) = kv := by rw [← h1, ← h2]
      rw [hkv]
      exact List.mem_cons_self kv rest
    · rw [if_neg hk] at h
      exact List.mem_cons_of_mem kv (ih h)

/-- C6: for every value that matches no recognized model kind, model_dump
returns the value itself unchanged, whatever the by_alias, camelize and
kebabize flags are: the opaque arm returns before any casing transform, and
raises nothing (model_dump is a total function in this embedding). -/
theorem model_dump_opaque_passthrough (raw : PyVal) (ba cam keb : Bool)
    (pref : Option String) (h : dumpRecognized raw pref = false) :
    model_dump raw ba cam keb pref = raw := by
  simp only [dumpRecognized, Bool.or_eq_false_iff] at h
  obtain ⟨⟨⟨⟨h1, h2⟩, h3⟩, h4⟩, h5⟩ := h
  simp [model_dump, dumpExtract, h1, h2, h3, h4, h5]

/-- Witness for C6: a bare string is opaque and passes through model_dump
unchanged even with camelize requested. -/
theorem model_dump_opaque_passthrough_witness :
    dumpRecognized (.str "hello_there") (some "pydantic") = false
      ∧ model_dump (.str "hello_there") false true false (some "pydantic")
          = .str "hello_there" :=
  ⟨rfl, model_dump_opaque_passthrough _ _ _ _ _ rfl⟩

/-- C1 counterexample: for the unrecognized target class Foo, model_load
does NOT raise the generic TypeError itself; the TypeError is raised inside
the try block, caught by the except clause, and re-raised wrapped in the
caller-supplied exception class. -/
theorem model_load_unrecognized_wrapped_cex :
    model_load (.dict []) ⟨"Foo", .other, [], []⟩ "SchemaInvalidError" false
        Option.none
      = .error (.wrapped "SchemaInvalidError" (.typeError "Cannot load Foo"))
    ∧ model_load (.dict []) ⟨"Foo", .other, [], []⟩ "SchemaInvalidError" false
        Option.none
      ≠ .error (.typeError "Cannot load Foo") := by
  have h0 : model_load (.dict []) ⟨"Foo", .other, [], []⟩ "SchemaInvalidError"
      false Option.none
      = Except.error (PyError.wrapped "SchemaInvalidError"
          (PyError.typeError "Cannot load Foo")) := rfl
  refine ⟨h0, ?_⟩
  intro h
  rw [h0] at h
  simp at h

/-- C1 amended: for every target type that matches no recognized model kind,
model_load raises one instance of the caller-supplied exception class
wrapping the generic TypeError (the TypeError raised for an unrecognized
kind sits inside the try block and is caught by the except clause, so it is
always wrapped, never propagated bare). -/
theorem model_load_unrecognized_raises_wrapped (data : PyVal) (mc : ModelClass)
    (E : String) (decam : Bool) (pref : Option String)
    (h1 : loadPydanticCond mc pref = false)
    (h2 : loadMsgspecCond mc pref = false) :
    model_load data mc E decam pref
      = .error (.wrapped E (.typeError ("Cannot load " ++ mc.name))) := by
  simp [model_load, loadTryBody, h1, h2, isCaughtByLoad]

/-- Witness for the amended C1 at a concrete unrecognized class. -/
theorem model_load_unrecognized_raises_wrapped_witness :
    model_load (.dict [("a", .int 1)]) ⟨"Foo", .other, [], []⟩ "ConversionError"
        true Option.none
      = .error (.wrapped "ConversionError" (.typeError "Cannot load Foo")) :=
  model_load_unrecognized_raises_wrapped _ ⟨"Foo", .other, [], []⟩ _ _ _ rfl rfl

/-- C3: for every recognized target kind, when the dispatched backend
conversion fails with a validation failure, type error or value error,
model_load raises exactly one instance of the caller-supplied exception
class with the original backend error retained as its cause, never the
backend-native error itself. -/
theorem model_load_wraps_backend_errors (data : PyVal) (mc : ModelClass)
    (E : String) (pref : Option String) (e : PyError)
    (hdisp : (loadPydanticCond mc pref = true
                ∧ pydanticValidate mc data = .error e)
        ∨ (loadPydanticCond mc pref = false ∧ loadMsgspecCond mc pref = true
                ∧ msgspecConvert mc data = .error e))
    (hback : isCaughtByLoad e = true) :
    model_load data mc E false pref = .error (.wrapped E e) := by
  rcases hdisp with ⟨h1, he⟩ | ⟨h1, h2, he⟩
  · simp [model_load, loadTryBody, h1, he, hback]
  · simp [model_load, loadTryBody, h1, h2, he, hback]

/-- Witness for C3: an int-typed field fed a string makes the pydantic
backend fail, and model_load raises the caller's class wrapping that
error. -/
theorem model_load_wraps_backend_errors_witness :
    model_load (.dict [("name", .str "bob"), ("age", .str "two")])
        ⟨"Details", .baseModel, [⟨"name", .str⟩, ⟨"age", .int⟩], []⟩
        "ConversionError" false Option.none
      = .error (.wrapped "ConversionError"
          (.pydanticValidationError "invalid type for field age")) :=
  model_load_wraps_backend_errors _ _ _ _ _ (Or.inl ⟨rfl, rfl⟩) rfl

theorem toBuiltins_of_checkFieldTy (ty : FieldTy) (v : PyVal)
    (h : checkFieldTy ty v = true) : toBuiltins v = v := by
  cases ty <;> cases v <;> simp_all [checkFieldTy, toBuiltins]

theorem toBuiltinsKVs_of_fieldsMatch :
    ∀ (fs : List (String × PyVal)) (ds : List FieldDecl),
      fieldsMatch fs ds = true → toBuiltinsKVs fs = fs
  | [], [], _ => rfl
  | (k, v) :: fs, f :: ds, h => by
    simp only [fieldsMatch, Bool.and_eq_true] at h
    obtain ⟨⟨_, hty⟩, hrest⟩ := h
    simp [toBuiltinsKVs, toBuiltins_of_checkFieldTy f.ty v hty,
      toBuiltinsKVs_of_fieldsMatch fs ds hrest]
  | [], _ :: _, h => by simp [fieldsMatch] at h
  | _ :: _, [], h => by
    rename_i p l
    obtain ⟨_, _⟩ := p
    simp [fieldsMatch] at h

theorem validateFieldList_skip (mk : String → PyError) (k : String) (v : PyVal)
    (rest : List (String × PyVal)) :
    ∀ ds : List FieldDecl, (∀ f ∈ ds, f.name ≠ k) →
      validateFieldList mk ds ((k, v) :: rest)
        = validateFieldList mk ds rest := by
  intro ds
  induction ds with
  | nil => intro _; rfl
  | cons f ds ih =>
    intro h
    have hf : f.name ≠ k := h f (List.mem_cons_self f ds)
    have hk : (k == f.name) = false :=
      beq_eq_false_iff_ne.mpr (fun hh => hf hh.symm)
    have hrest := ih (fun f' hf' => h f' (List.mem_cons_of_mem f hf'))
    simp only [validateFieldList, lookupDict, lookupA_cons]
    rw [if_neg (by simp [hk])]
    cases hl : lookupA rest f.name with
    | none => rfl
    | some v' =>
      by_cases hty : checkFieldTy f.ty v' = true
      · simp only [hty, if_true, hrest]
      · simp only [hty, if_false, Bool.false_eq_true]

theorem validateFieldList_of_fieldsMatch (mk : String → PyError) :
    ∀ (ds : List FieldDecl) (fs : List (String × PyVal)),
      fieldsMatch fs ds = true → (ds.map FieldDecl.name).Nodup →
      validateFieldList mk ds fs = .ok fs
  | [], [], _, _ => rfl
  | f :: ds, (k, v) :: rest, h, hnodup => by
    simp only [fieldsMatch, Bool.and_eq_true] at h
    obtain ⟨⟨hk, hty⟩, hrest⟩ := h
    have hkeq : k = f.name := by simpa using hk
    subst hkeq
    rw [List.map_cons, List.nodup_cons] at hnodup
    obtain ⟨hnotmem, hnodup'⟩ := hnodup
    have hskip : validateFieldList mk ds ((f.name, v) :: rest)
        = validateFieldList mk ds rest := by
      refine validateFieldList_skip mk f.name v rest ds (fun f' hf' hne => ?_)
      exact hnotmem (hne ▸ List.mem_map_of_mem FieldDecl.name hf')
    simp only [validateFieldList, lookupDict, lookupA_cons]
    rw [if_pos (by simp)]
    simp only [hty, if_true, hskip,
      validateFieldList_of_fieldsMatch mk ds rest hrest hnodup']
  | _ :: _, [], h, _ => by simp [fieldsMatch] at h
  | [], (k, v) :: rest, h, _ => by simp [fieldsMatch] at h

theorem model_dump_class_kind (cls : ModelClass) (fs : List (String × PyVal))
    (ba : Bool) (pref : Option String) (h : classBasedKind cls.kind = true) :
    model_dump (.model cls fs) ba false false pref
      = .dict (toBuiltinsKVs fs) := by
  simp only [classBasedKind, Bool.or_eq_true, beq_iff_eq] at h
  unfold model_dump dumpExtract
  rcases h with ((((h | h) | h) | h) | h)
  · simp [is_pydantic_dataclass_val, typeOf, h, toBuiltins]
  · simp [is_pydantic_dataclass_val, isinstance_BaseModel, typeOf, h,
      beq_iff_eq, toBuiltins]
  · simp [is_pydantic_dataclass_val, isinstance_BaseModel, isinstance_Struct,
      typeOf, h, beq_iff_eq, toBuiltins]
  · simp [is_pydantic_dataclass_val, isinstance_BaseModel, isinstance_Struct,
      is_attrs_val, typeOf, h, beq_iff_eq, toBuiltins]
  · by_cases hp : (pref == some "msgspec") = true
    · have hpy : (pref == some "pydantic") = false := by
        have hp2 : pref = some "msgspec" := by simpa using hp
        simp [hp2]
      simp [is_pydantic_dataclass_val, isinstance_BaseModel, isinstance_Struct,
        is_attrs_val, isinstance_list_dict_val, is_dataclass_val, typeOf, h,
        beq_iff_eq, hp, hpy, PYDANTIC_INSTALLED, MSGSPEC_INSTALLED, toBuiltins]
    · have hp' : (pref == some "msgspec") = false := Bool.eq_false_iff.mpr hp
      simp [is_pydantic_dataclass_val, isinstance_BaseModel, isinstance_Struct,
        is_attrs_val, isinstance_list_dict_val, is_dataclass_val, typeOf, h,
        beq_iff_eq, hp', PYDANTIC_INSTALLED, MSGSPEC_INSTALLED, toBuiltins]

theorem loadTryBody_class_kind (cls : ModelClass) (data : List (String × PyVal))
    (r : List (String × PyVal)) (pref : Option String)
    (h : classBasedKind cls.kind = true)
    (hval : ∀ mk : String → PyError,
        validateFieldList mk cls.fields data = .ok r) :
    loadTryBody (.dict data) cls pref = .ok (.model cls r) := by
  simp only [classBasedKind, Bool.or_eq_true, beq_iff_eq] at h
  unfold loadTryBody loadPydanticCond loadMsgspecCond
  rcases h with ((((h | h) | h) | h) | h)
  · simp [is_pydantic_dataclass_cls, h, pydanticValidate, hval]
  · simp [is_pydantic_dataclass_cls, issubclass_BaseModel, h, beq_iff_eq,
      pydanticValidate, hval]
  · simp [is_pydantic_dataclass_cls, issubclass_BaseModel, issubclass_Struct,
      is_attrs_cls, is_dataclass_cls, isinstance_list_dict_cls, h, beq_iff_eq,
      pydanticValidate, msgspecConvert, hval, PYDANTIC_INSTALLED]
  · simp [is_pydantic_dataclass_cls, issubclass_BaseModel, issubclass_Struct,
      is_attrs_cls, is_dataclass_cls, isinstance_list_dict_cls, h, beq_iff_eq,
      pydanticValidate, msgspecConvert, hval, PYDANTIC_INSTALLED]
  · by_cases hp : (pref == some "msgspec") = true
    · have hpy : (pref == some "pydantic") = false := by
        have hp2 : pref = some "msgspec" := by simpa using hp
        simp [hp2]
      simp [is_pydantic_dataclass_cls, issubclass_BaseModel, issubclass_Struct,
        is_attrs_cls, is_dataclass_cls, isinstance_list_dict_cls, h,
        beq_iff_eq, hp, hpy, PYDANTIC_INSTALLED, MSGSPEC_INSTALLED,
        pydanticValidate, msgspecConvert, hval]
    · have hp' : (pref == some "msgspec") = false := Bool.eq_false_iff.mpr hp
      simp [is_pydantic_dataclass_cls, issubclass_BaseModel, issubclass_Struct,
        is_attrs_cls, is_dataclass_cls, isinstance_list_dict_cls, h,
        beq_iff_eq, hp', PYDANTIC_INSTALLED, MSGSPEC_INSTALLED,
        pydanticValidate, msgspecConvert, hval]

/-- C2 counterexample: a bare dict is a recognized value for model_dump, but
the round trip fails: model_load rejects the builtin `dict` class (its
runtime type), raising the caller's exception class around a TypeError
instead of returning the value. -/
theorem round_trip_fails_on_dict_cex :
    dumpRecognized (.dict [("a", .int 1)]) Option.none = true
      ∧ model_dump (.dict [("a", .int 1)]) false false false Option.none
          = .dict [("a", .int 1)]
      ∧ model_load (model_dump (.dict [("a", .int 1)]) false false false
            Option.none)
          (typeOf (.dict [("a", .int 1)])) "ConversionError" false Option.none
          = .error (.wrapped "ConversionError" (.typeError "Cannot load dict"))
      ∧ model_load (model_dump (.dict [("a", .int 1)]) false false false
            Option.none)
          (typeOf (.dict [("a", .int 1)])) "ConversionError" false Option.none
          ≠ .ok (.dict [("a", .int 1)]) := by
  have h0 : model_load (model_dump (.dict [("a", .int 1)]) false false false
        Option.none)
      (typeOf (.dict [("a", .int 1)])) "ConversionError" false Option.none
      = Except.error (PyError.wrapped "ConversionError"
          (PyError.typeError "Cannot load dict")) := rfl
  refine ⟨rfl, rfl, h0, ?_⟩
  intro h
  rw [h0] at h
  simp at h

/-- C2 amended: for every class-based model kind (pydantic dataclass,
BaseModel subclass, msgspec Struct subclass, attrs class, plain dataclass)
and every valid instance of such a class (distinct declared field names,
field values of the declared types), dumping with by_alias=False and no
casing and loading back at the instance's runtime type returns an equal
value, for any caller-supplied exception class and any preference.  The
round trip does not extend to bare list/dict values, whose runtime type is
rejected by model_load. -/
theorem model_round_trip_class_kinds (cls : ModelClass)
    (fs : List (String × PyVal)) (E : String) (pref : Option String)
    (hkind : classBasedKind cls.kind = true)
    (hwf : fieldsMatch fs cls.fields = true)
    (hnodup : (cls.fields.map FieldDecl.name).Nodup) :
    model_load (model_dump (.model cls fs) false false false pref)
        (typeOf (.model cls fs)) E false pref
      = .ok (.model cls fs) := by
  rw [model_dump_class_kind cls fs false pref hkind,
    toBuiltinsKVs_of_fieldsMatch fs cls.fields hwf]
  show model_load (.dict fs) cls E false pref = .ok (.model cls fs)
  have hval : ∀ mk : String → PyError,
      validateFieldList mk cls.fields fs = .ok fs :=
    fun mk => validateFieldList_of_fieldsMatch mk cls.fields fs hwf hnodup
  unfold model_load
  simp [loadTryBody_class_kind cls fs fs pref hkind hval]

/-- Witness for the amended C2 at a concrete msgspec Struct instance. -/
theorem model_round_trip_class_kinds_witness :
    model_load
        (model_dump
          (.model ⟨"MDetails", .struct, [⟨"name", .str⟩, ⟨"age", .int⟩], []⟩
            [("name", .str "bob"), ("age", .int 2)])
          false false false Option.none)
        (typeOf
          (.model ⟨"MDetails", .struct, [⟨"name", .str⟩, ⟨"age", .int⟩], []⟩
            [("name", .str "bob"), ("age", .int 2)]))
        "ConversionError" false Option.none
      = .ok (.model ⟨"MDetails", .struct, [⟨"name", .str⟩, ⟨"age", .int⟩], []⟩
          [("name", .str "bob"), ("age", .int 2)]) :=
  model_round_trip_class_kinds _ _ _ _ rfl rfl (by simp)

/-- C4: convert_response_return_value preserves the shape of its input (bare
value to bare value, 2-tuple to 2-tuple, 3-tuple to 3-tuple); in a 2-tuple
the second element is treated as a status exactly when it is an int
instance, otherwise as a headers mapping; any status present is returned
unchanged while the body is serialized with the configured casing. -/
theorem convert_response_preserves_shape (cfg : AppConfig) :
    (∀ r, shapeOf (convert_response_return_value cfg r) = shapeOf r)
      ∧ (∀ v s h, convert_response_return_value cfg (.three v s h)
            = .three (dumpBody cfg v) s (dumpHeaders cfg h))
      ∧ (∀ v soh, convert_response_return_value cfg (.two v soh)
            = if isIntInstance soh then .two (dumpBody cfg v) soh
              else .two (dumpBody cfg v) (dumpHeaders cfg soh))
      ∧ (∀ v, convert_response_return_value cfg (.bare v)
            = .bare (dumpBody cfg v)) := by
  refine ⟨?_, fun v s h => rfl, fun v soh => rfl, fun v => rfl⟩
  intro r
  cases r with
  | httpExc e => rfl
  | bare v => rfl
  | two v soh =>
    show shapeOf (if isIntInstance soh then _ else _) = 2
    by_cases h : isIntInstance soh = true
    · rw [if_pos h]; rfl
    · rw [if_neg h]; rfl
  | three v s h => rfl

theorem isIntInstance_toBuiltins (raw : PyVal) :
    isIntInstance (toBuiltins raw) = isIntInstance raw := by
  cases raw <;> rfl

theorem isIntInstance_applyKeys (f : String → String) (v : PyVal) :
    isIntInstance (applyKeys f v) = isIntInstance v := by
  cases v <;> rfl

theorem isIntInstance_model_dump (raw : PyVal) (ba cam keb : Bool)
    (pref : Option String) :
    isIntInstance (model_dump raw ba cam keb pref) = isIntInstance raw := by
  unfold model_dump
  cases hx : dumpExtract raw ba pref with
  | none => rfl
  | some value =>
    have hv : value = toBuiltins raw := by
      unfold dumpExtract at hx
      split at hx
      · exact (Option.some.inj hx).symm
      · split at hx
        · exact (Option.some.inj hx).symm
        · split at hx
          · exact (Option.some.inj hx).symm
          · split at hx
            · exact (Option.some.inj hx).symm
            · split at hx
              · exact (Option.some.inj hx).symm
              · exact absurd hx (by simp)
    subst hv
    show isIntInstance
        (if cam = true then applyKeys camelizeStr (toBuiltins raw)
         else if keb = true then applyKeys kebabizeStr (toBuiltins raw)
         else toBuiltins raw)
      = isIntInstance raw
    by_cases hc : cam = true
    · rw [if_pos hc, isIntInstance_applyKeys, isIntInstance_toBuiltins]
    · rw [if_neg hc]
      by_cases hk : keb = true
      · rw [if_pos hk, isIntInstance_applyKeys, isIntInstance_toBuiltins]
      · rw [if_neg hk, isIntInstance_toBuiltins]

theorem dumpRecognized_dict (kvs : List (String × PyVal))
    (pref : Option String) : dumpRecognized (.dict kvs) pref = true := by
  unfold dumpRecognized
  by_cases hp : (pref == some "msgspec") = true
  · have hpy : (pref == some "pydantic") = false := by
      have hp2 : pref = some "msgspec" := by simpa using hp
      simp [hp2]
    simp [is_pydantic_dataclass_val, isinstance_BaseModel, isinstance_Struct,
      is_attrs_val, isinstance_list_dict_val, is_dataclass_val, typeOf,
      PYDANTIC_INSTALLED, MSGSPEC_INSTALLED, hp, hpy]
  · have hp' : (pref == some "msgspec") = false := Bool.eq_false_iff.mpr hp
    simp [is_pydantic_dataclass_val, isinstance_BaseModel, isinstance_Struct,
      is_attrs_val, isinstance_list_dict_val, is_dataclass_val, typeOf,
      PYDANTIC_INSTALLED, MSGSPEC_INSTALLED, hp']

theorem model_dump_dict_kebab (kvs : List (String × PyVal)) (ba : Bool)
    (pref : Option String) :
    model_dump (.dict kvs) ba false true pref
      = applyKeys kebabizeStr (toBuiltins (.dict kvs)) := by
  unfold model_dump dumpExtract
  by_cases hp : (pref == some "msgspec") = true
  · have hpy : (pref == some "pydantic") = false := by
      have hp2 : pref = some "msgspec" := by simpa using hp
      simp [hp2]
    simp [is_pydantic_dataclass_val, isinstance_BaseModel, isinstance_Struct,
      is_attrs_val, isinstance_list_dict_val, is_dataclass_val, typeOf,
      PYDANTIC_INSTALLED, MSGSPEC_INSTALLED, hp, hpy]
  · have hp' : (pref == some "msgspec") = false := Bool.eq_false_iff.mpr hp
    simp [is_pydantic_dataclass_val, isinstance_BaseModel, isinstance_Struct,
      is_attrs_val, isinstance_list_dict_val, is_dataclass_val, typeOf,
      PYDANTIC_INSTALLED, MSGSPEC_INSTALLED, hp']

/-- C5: any headers mapping in the return value is serialized with
kebab-casing forced on its keys, for every value of the process-wide casing
configuration: the headers of a 3-tuple (and of a 2-tuple whose second
element is not an int) go through model_dump with kebabize=True and
camelize off regardless of the configured casing, a dict of headers has its
keys rewritten by the kebab transform, and flipping the casing configuration
changes the headers component of no output. -/
theorem response_headers_always_kebab :
    (∀ (cas ba : Bool) (pref : Option String) (v : PyVal) (s : Int)
        (h : PyVal),
      convert_response_return_value ⟨cas, ba, pref⟩ (.three v s h)
        = .three (dumpBody ⟨cas, ba, pref⟩ v) s (model_dump h ba false true pref))
      ∧ (∀ (cas ba : Bool) (pref : Option String) (kvs : List (String × PyVal)),
          dumpHeaders ⟨cas, ba, pref⟩ (.dict kvs)
            = applyKeys kebabizeStr (toBuiltins (.dict kvs)))
      ∧ (∀ (cas1 cas2 ba : Bool) (pref : Option String) (r : ResponseResult),
          headersOf (convert_response_return_value ⟨cas1, ba, pref⟩ r)
            = headersOf (convert_response_return_value ⟨cas2, ba, pref⟩ r)) := by
  refine ⟨fun cas ba pref v s h => rfl,
    fun cas ba pref kvs => model_dump_dict_kebab kvs ba pref,
    fun cas1 cas2 ba pref r => ?_⟩
  cases r with
  | httpExc e => rfl
  | bare v => rfl
  | three v s h => rfl
  | two v soh =>
    show headersOf (if isIntInstance soh then _ else _)
      = headersOf (if isIntInstance soh then _ else _)
    by_cases h : isIntInstance soh = true
    · rw [if_pos h, if_pos h]
      show (if isIntInstance soh then Option.none else some soh)
        = (if isIntInstance soh then Option.none else some soh)
      rfl
    · rw [if_neg h, if_neg h]
      show headersOf (.two _ (dumpHeaders ⟨cas1, ba, pref⟩ soh))
        = headersOf (.two _ (dumpHeaders ⟨cas2, ba, pref⟩ soh))
      unfold headersOf
      rw [show dumpHeaders ⟨cas1, ba, pref⟩ soh
          = dumpHeaders ⟨cas2, ba, pref⟩ soh from rfl]

theorem headerLoop_sound (raw : List (String × String))
    (fields_ : List String) :
    ∀ (ms : List (String × String)) (acc : List (String × PyVal)),
      (∀ kv ∈ ms, kv ∈ raw) →
      (∀ e ∈ acc, e.1 ∈ fields_ ∧ ∃ rk, rk ∈ raw.map Prod.fst
          ∧ normalizeHeaderKey rk = e.1
          ∧ e.2 = .str (joinComma (getAll raw rk))) →
      ∀ e ∈ ms.foldl (headerStep raw fields_) acc,
        e.1 ∈ fields_ ∧ ∃ rk, rk ∈ raw.map Prod.fst
          ∧ normalizeHeaderKey rk = e.1
          ∧ e.2 = .str (joinComma (getAll raw rk)) := by
  intro ms
  induction ms with
  | nil => intro acc _ hacc e he; exact hacc e he
  | cons kv ms ih =>
    intro acc hms hacc e he
    rw [List.foldl_cons] at he
    refine ih (headerStep raw fields_ acc kv)
      (fun kv' h' => hms kv' (List.mem_cons_of_mem kv h')) ?_ e he
    intro e' he'
    simp only [headerStep] at he'
    by_cases hcont : fields_.contains (normalizeHeaderKey kv.1) = true
    · rw [if_pos hcont] at he'
      rcases mem_dictSetA acc (normalizeHeaderKey kv.1)
          (.str (joinComma (getAll raw kv.1))) e'
          (by simpa [dictSet] using he') with heq | hmem
      · subst heq
        refine ⟨by simpa using hcont, kv.1, ?_, rfl, rfl⟩
        exact List.mem_map_of_mem Prod.fst (hms kv (List.mem_cons_self kv ms))
      · exact hacc e' hmem
    · rw [if_neg hcont] at he'
      exact hacc e' he'

theorem headerLoop_isSome_mono (raw : List (String × String))
    (fields_ : List String) (K : String) :
    ∀ (ms : List (String × String)) (acc : List (String × PyVal)),
      (lookupA acc K).isSome = true →
      (lookupA (ms.foldl (headerStep raw fields_) acc) K).isSome = true := by
  intro ms
  induction ms with
  | nil => intro acc h; exact h
  | cons kv ms ih =>
    intro acc h
    rw [List.foldl_cons]
    refine ih _ ?_
    simp only [headerStep]
    by_cases hcont : fields_.contains (normalizeHeaderKey kv.1) = true
    · rw [if_pos hcont]
      simp only [dictSet]
      exact isSome_lookupA_dictSetA acc (normalizeHeaderKey kv.1) K
        (.str (joinComma (getAll raw kv.1))) h
    · rw [if_neg hcont]
      exact h

theorem headerLoop_populates (raw : List (String × String))
    (fields_ : List String) :
    ∀ (ms : List (String × String)) (acc : List (String × PyVal))
      (rk : String),
      (∃ v, (rk, v) ∈ ms) →
      fields_.contains (normalizeHeaderKey rk) = true →
      (lookupA (ms.foldl (headerStep raw fields_) acc)
        (normalizeHeaderKey rk)).isSome = true := by
  intro ms
  induction ms with
  | nil =>
    intro acc rk h _
    rcases h with ⟨v, hv⟩
    simp at hv
  | cons kv ms ih =>
    intro acc rk hex hcont
    rcases hex with ⟨v, hv⟩
    rw [List.foldl_cons]
    rcases List.mem_cons.mp hv with heq | hmem
    · have hk1 : kv.1 = rk := by rw [← heq]
      refine headerLoop_isSome_mono raw fields_ _ ms _ ?_
      simp only [headerStep, hk1]
      rw [if_pos hcont]
      simp only [dictSet]
      rw [lookupA_dictSetA_self]
      rfl
    · exact ih (headerStep raw fields_ acc kv) rk ⟨v, hmem⟩ hcont

/-- C7: the header collection of convert_headers rewrites every wire header
name to its lower-cased, underscore-joined form; every collected entry is a
declared field whose value is the comma-join of all case-insensitive wire
matches of some header; every wire header whose converted form is a
declared field is collected; any name that is not a declared field is
absent from the collected dict (silently dropped, producing no error); and
convert_headers is exactly the construction of the model from that dict. -/
theorem convert_headers_mapping (raw : List (String × String))
    (mc : ModelClass) (E : String) (fields_ : List String)
    (hf : headerFields mc = .ok fields_) :
    (∀ e ∈ headerLoop raw fields_,
        e.1 ∈ fields_ ∧ ∃ rk, rk ∈ raw.map Prod.fst
          ∧ normalizeHeaderKey rk = e.1
          ∧ e.2 = .str (joinComma (getAll raw rk)))
      ∧ (∀ rk, rk ∈ raw.map Prod.fst →
          normalizeHeaderKey rk ∈ fields_ →
          (lookupDict (headerLoop raw fields_)
            (normalizeHeaderKey rk)).isSome = true)
      ∧ (∀ K, K ∉ fields_ →
          lookupDict (headerLoop raw fields_) K = Option.none)
      ∧ convert_headers raw mc E
          = constructFromHeaders mc (headerLoop raw fields_) E := by
  have hsound := headerLoop_sound raw fields_ raw [] (fun kv h => h)
    (fun e he => absurd he (List.not_mem_nil e))
  refine ⟨hsound, ?_, ?_, ?_⟩
  · intro rk hrk hmem
    rcases List.mem_map.mp hrk with ⟨kv, hkv, h1⟩
    refine headerLoop_populates raw fields_ raw [] rk ⟨kv.2, ?_⟩
      (by simpa using hmem)
    have : (rk, kv.2) = kv := by rw [← h1]
    rw [this]
    exact hkv
  · intro K hK
    cases hl : lookupDict (headerLoop raw fields_) K with
    | none => rfl
    | some v =>
      have hmem : (K, v) ∈ headerLoop raw fields_ :=
        lookupA_mem K v (headerLoop raw fields_) hl
      exact absurd (hsound (K, v) hmem).1 hK
  · unfold convert_headers
    rw [hf]

/-- Witness for C7: with fields [x_info], the wire headers X-Info and x-info
are both folded (case-insensitively) into the single field x_info with
comma-joined value, the unknown header Other is dropped without error, and
construction succeeds. -/
theorem convert_headers_mapping_witness :
    (lookupDict
        (headerLoop [("X-Info", "a"), ("x-info", "b"), ("Other", "2")]
          ["x_info"])
        (normalizeHeaderKey "X-Info")).isSome = true
      ∧ lookupDict
          (headerLoop [("X-Info", "a"), ("x-info", "b"), ("Other", "2")]
            ["x_info"]) "x_info"
        = some (.str "a,b")
      ∧ convert_headers [("X-Info", "a"), ("x-info", "b"), ("Other", "2")]
          ⟨"MHeaders", .struct, [⟨"x_info", .str⟩], []⟩ "ConversionError"
        = .ok (.model ⟨"MHeaders", .struct, [⟨"x_info", .str⟩], []⟩
            [("x_info", .str "a,b")]) := by
  refine ⟨?_, rfl, rfl⟩
  refine (convert_headers_mapping
    [("X-Info", "a"), ("x-info", "b"), ("Other", "2")]
    ⟨"MHeaders", .struct, [⟨"x_info", .str⟩], []⟩ "ConversionError"
    ["x_info"] rfl).2.1 "X-Info" (by simp) ?_
  rw [show normalizeHeaderKey "X-Info" = "x_info" from rfl]
  simp

theorem attachPred_iff (m : String) (pao : Bool) (k : String) :
    (!(m == "HEAD" || (m == "OPTIONS" && pao)) && (lowerStr m == k)) = true
      ↔ lowerStr m = k ∧ m ≠ "HEAD" ∧ ¬(m = "OPTIONS" ∧ pao = true) := by
  simp only [Bool.and_eq_true, Bool.not_eq_true', Bool.or_eq_false_iff,
    Bool.and_eq_false_iff, beq_iff_eq, beq_eq_false_iff_ne, Bool.not_eq_true]
  constructor
  · intro h
    rcases h with ⟨⟨hh, ho⟩, hk⟩
    refine ⟨hk, hh, fun hc => ?_⟩
    rcases ho with ho | ho
    · exact ho hc.1
    · rw [hc.2] at ho
      cases ho
  · intro h
    rcases h with ⟨hk, hh, ho⟩
    refine ⟨⟨hh, ?_⟩, hk⟩
    by_cases hm : m = "OPTIONS"
    · right
      cases hp : pao
      · rfl
      · exact absurd ⟨hm, hp⟩ ho
    · left
      exact hm

theorem lookupA_attachOperations {α : Type} (op : α) (pao : Bool) (k : String) :
    ∀ (methods : List String) (acc : List (String × α)),
      lookupA (attachOperations methods pao op acc) k
        = if methods.any
              (fun m => !(m == "HEAD" || (m == "OPTIONS" && pao))
                && (lowerStr m == k))
          then some op else lookupA acc k := by
  intro methods
  induction methods with
  | nil => intro acc; simp [attachOperations]
  | cons m ms ih =>
    intro acc
    rw [show attachOperations (m :: ms) pao op acc
        = attachOperations ms pao op
            (if m == "HEAD" || (m == "OPTIONS" && pao) then acc
             else dictSetA acc (lowerStr m) op) from rfl]
    rw [ih]
    by_cases hskip : (m == "HEAD" || (m == "OPTIONS" && pao)) = true
    · rw [if_pos hskip]
      have hpred : (!(m == "HEAD" || (m == "OPTIONS" && pao))
          && (lowerStr m == k)) = false := by
        simp [hskip]
      rw [List.any_cons, hpred]
      simp only [Bool.false_or]
    · rw [if_neg hskip]
      have hskip' : (m == "HEAD" || (m == "OPTIONS" && pao)) = false :=
        Bool.eq_false_iff.mpr hskip
      by_cases hk : (lowerStr m == k) = true
      · have hkeq : lowerStr m = k := by simpa using hk
        have hpred : (!(m == "HEAD" || (m == "OPTIONS" && pao))
            && (lowerStr m == k)) = true := by
          simp [hskip', hk]
        rw [List.any_cons, hpred]
        simp only [Bool.true_or, if_true]
        by_cases hms : ms.any
            (fun m => !(m == "HEAD" || (m == "OPTIONS" && pao))
              && (lowerStr m == k)) = true
        · rw [if_pos hms]
        · rw [if_neg hms, hkeq, lookupA_dictSetA_self]
      · have hpred : (!(m == "HEAD" || (m == "OPTIONS" && pao))
            && (lowerStr m == k)) = false := by
          simp [Bool.eq_false_iff.mpr hk]
        rw [List.any_cons, hpred]
        simp only [Bool.false_or]
        by_cases hms : ms.any
            (fun m => !(m == "HEAD" || (m == "OPTIONS" && pao))
              && (lowerStr m == k)) = true
        · rw [if_pos hms, if_pos hms]
        · rw [if_neg hms, if_neg hms]
          exact lookupA_dictSetA_ne acc (lowerStr m) k op
            (fun hh => hk (by simp [hh]))

/-- C8: in the assembled method map, the operation object sits under the
lower-cased key of exactly those accepted HTTP methods that are not HEAD and
not an auto-generated OPTIONS: the lookup of a key succeeds (returning the
shared operation object) iff some accepted method lower-cases to it, is not
HEAD, and is not OPTIONS while the router provides automatic options. -/
theorem openapi_method_keys {α : Type} (methods : List String) (pao : Bool)
    (op : α) (k : String) :
    lookupA (attachOperations methods pao op []) k = some op
      ↔ ∃ m, m ∈ methods ∧ lowerStr m = k ∧ m ≠ "HEAD"
          ∧ ¬(m = "OPTIONS" ∧ pao = true) := by
  rw [lookupA_attachOperations]
  by_cases h : methods.any
      (fun m => !(m == "HEAD" || (m == "OPTIONS" && pao))
        && (lowerStr m == k)) = true
  · rw [if_pos h]
    constructor
    · intro _
      rcases List.any_eq_true.mp h with ⟨m, hm, hp⟩
      rcases (attachPred_iff m pao k).mp hp with ⟨h1, h2, h3⟩
      exact ⟨m, hm, h1, h2, h3⟩
    · intro _
      rfl
  · rw [if_neg h]
    constructor
    · intro hl
      rw [lookupA_nil] at hl
      cases hl
    · intro hex
      rcases hex with ⟨m, hm, h1, h2, h3⟩
      exact absurd (List.any_eq_true.mpr
        ⟨m, hm, (attachPred_iff m pao k).mpr ⟨h1, h2, h3⟩⟩) h

/-- Witness for C8: with automatic options, GET is attached under its
lower-cased key, HEAD is omitted, and without automatic options OPTIONS is
attached. -/
theorem openapi_method_keys_witness :
    lookupA (attachOperations ["GET", "HEAD", "OPTIONS"] true (0 : Nat) [])
        "get" = some 0
      ∧ lookupA (attachOperations ["GET", "HEAD", "OPTIONS"] true (0 : Nat) [])
          "head" = Option.none
      ∧ lookupA (attachOperations ["OPTIONS"] false (1 : Nat) []) "options"
          = some 1 := by
  refine ⟨?_, rfl, ?_⟩
  · exact (openapi_method_keys ["GET", "HEAD", "OPTIONS"] true 0 "get").mpr
      ⟨"GET", by simp, rfl, by decide, by simp⟩
  · exact (openapi_method_keys ["OPTIONS"] false 1 "options").mpr
      ⟨"OPTIONS", by simp, rfl, by decide, by simp⟩

theorem filter_eq_self_of_no_key (K : String) :
    ∀ d : List (String × PyVal), (∀ kv ∈ d, kv.1 ≠ K) →
      d.filter (fun kv => !(kv.1 == K)) = d := by
  intro d
  induction d with
  | nil => intro _; rfl
  | cons kv rest ih =>
    intro h
    have hk : (kv.1 == K) = false :=
      beq_eq_false_iff_ne.mpr (h kv (List.mem_cons_self kv rest))
    rw [List.filter_cons]
    simp only [hk, Bool.not_false, if_true]
    rw [ih (fun kv' h' => h kv' (List.mem_cons_of_mem kv h'))]

theorem no_key_of_lookupA_none (K : String) :
    ∀ d : List (String × PyVal), lookupA d K = Option.none →
      ∀ kv ∈ d, kv.1 ≠ K := by
  intro d
  induction d with
  | nil => intro _ kv hkv; exact absurd hkv (List.not_mem_nil kv)
  | cons kv0 rest ih =>
    intro h kv hkv
    rw [lookupA_cons] at h
    by_cases hk : (kv0.1 == K) = true
    · rw [if_pos hk] at h
      cases h
    · rw [if_neg hk] at h
      rcases List.mem_cons.mp hkv with heq | hmem
      · subst heq
        simpa using hk
      · exact ih h kv hmem

theorem eraseFirstKey_eq_filter (K : String) :
    ∀ d : List (String × PyVal), (d.map Prod.fst).Nodup →
      eraseFirstKey d K = d.filter (fun kv => !(kv.1 == K)) := by
  intro d
  induction d with
  | nil => intro _; rfl
  | cons kv rest ih =>
    intro hnodup
    rw [List.map_cons, List.nodup_cons] at hnodup
    obtain ⟨hnotmem, hnodup'⟩ := hnodup
    unfold eraseFirstKey
    rw [List.filter_cons]
    by_cases hk : (kv.1 == K) = true
    · rw [if_pos hk]
      simp only [hk, Bool.not_true, if_false, Bool.false_eq_true]
      have hKeq : kv.1 = K := by simpa using hk
      refine (filter_eq_self_of_no_key K rest (fun kv' h' hc => ?_)).symm
      apply hnotmem
      rw [hKeq, ← hc]
      exact List.mem_map_of_mem Prod.fst h'
    · rw [if_neg hk]
      simp only [hk, Bool.not_false, if_true]
      rw [ih hnodup']

/-- C9: _split_definitions returns the value of the schema's "definitions"
entry (an empty dict when absent) together with the schema minus that entry
with all other entries unchanged and in order, and the caller's dict object
itself is left unmodified (the pop happens on a copy). -/
theorem split_definitions_spec (schema : List (String × PyVal))
    (hnodup : (schema.map Prod.fst).Nodup) :
    (split_definitions schema).2 = schema
      ∧ (split_definitions schema).1.1
          = (lookupDict schema "definitions").getD (.dict [])
      ∧ (split_definitions schema).1.2
          = schema.filter (fun kv => !(kv.1 == "definitions")) := by
  refine ⟨rfl, ?_, ?_⟩
  · show (dictPopD schema "definitions" (.dict [])).1
      = (lookupDict schema "definitions").getD (.dict [])
    unfold dictPopD
    cases h : lookupDict schema "definitions" with
    | none => rfl
    | some v => rfl
  · show (dictPopD schema "definitions" (.dict [])).2
      = schema.filter (fun kv => !(kv.1 == "definitions"))
    unfold dictPopD
    cases h : lookupDict schema "definitions" with
    | none =>
      exact (filter_eq_self_of_no_key "definitions" schema
        (no_key_of_lookupA_none "definitions" schema h)).symm
    | some v =>
      exact eraseFirstKey_eq_filter "definitions" schema hnodup

/-- Witness for C9 on a concrete schema dict holding a definitions entry
between two others. -/
theorem split_definitions_spec_witness :
    (split_definitions
        [("title", .str "T"), ("definitions", .dict [("D", .dict [])]),
          ("type", .str "object")]).2
      = [("title", .str "T"), ("definitions", .dict [("D", .dict [])]),
          ("type", .str "object")]
      ∧ (split_definitions
          [("title", .str "T"), ("definitions", .dict [("D", .dict [])]),
            ("type", .str "object")]).1.1
        = .dict [("D", .dict [])]
      ∧ (split_definitions
          [("title", .str "T"), ("definitions", .dict [("D", .dict [])]),
            ("type", .str "object")]).1.2
        = [("title", .str "T"), ("type", .str "object")] := by
  have h := split_definitions_spec
    [("title", .str "T"), ("definitions", .dict [("D", .dict [])]),
      ("type", .str "object")] (by simp)
  exact ⟨h.1, h.2.1, h.2.2⟩

/-- C10: send_as raises SchemaValidationError for every value that is
neither a dict nor of runtime type exactly the given model class; the type
comparison is exact class equality, so an instance of a strict subclass is
rejected rather than sent. -/
theorem send_as_rejects_wrong_type (value : PyVal) (mc : ModelClass)
    (hdict : isinstance_dict value = false) (hty : typeOf value ≠ mc) :
    send_as value mc = .error .schemaValidationError := by
  cases value with
  | dict kvs => simp [isinstance_dict] at hdict
  | str s => simp [send_as, hty]
  | int n => simp [send_as, hty]
  | bool b => simp [send_as, hty]
  | noneV => simp [send_as, hty]
  | list xs => simp [send_as, hty]
  | model cls fs => simp [send_as, hty]

/-- Witness for C10: an instance of a strict subclass of the target class is
rejected by send_as. -/
theorem send_as_rejects_wrong_type_witness :
    isStrictSubclass ⟨"Sub", .baseModel, [], ["Base"]⟩
        ⟨"Base", .baseModel, [], []⟩ = true
      ∧ send_as (.model ⟨"Sub", .baseModel, [], ["Base"]⟩ [])
          ⟨"Base", .baseModel, [], []⟩
        = .error .schemaValidationError :=
  ⟨by decide, send_as_rejects_wrong_type _ _ rfl (by decide)⟩
